import Mathlib

set_option maxRecDepth 10000

/-!
Shallow embedding of the color utilities of `src/server.ts` from the
random-color-api repository, and proofs of the specified properties.

The server exposes three pure helpers:
* `randomRGB()` — `Math.floor(Math.random() * 256)`;
* `rgbToHex(r, g, b)` — `#rrggbb` with two lowercase hex digits per channel,
  each produced by `n.toString(16).padStart(2, "0")`;
* `rgbToHsl(r, g, b)` — normalizes the channels by 255, computes max/min,
  lightness, saturation and hue per the hexcone formulas, and formats
  `hsl(H, S%, L%)` with `Math.round` applied to `h*360`, `s*100`, `l*100`.

JavaScript number arithmetic is modelled over `ℚ`; the function `Math.round x`
for the nonnegative values that occur here is `⌊x + 1/2⌋`, and `Math.floor` is
`Int.floor`. The body of `rgbToHsl` assigns the three local variables `h`,
`s`, `l`; they are embedded as the three functions `hslH`, `hslS`, `hslL`
(with the local `d = max - min` inlined), and the returned template string is
assembled from their rounded values exactly as in the source.
-/

namespace RandomColorApi

/-- Embedding of `Math.round` as used in `rgbToHsl` (every rounded value is
nonnegative there): JavaScript rounds half towards positive infinity,
that is `⌊x + 1/2⌋`. -/
def jsRound (q : ℚ) : ℤ := ⌊q + 1/2⌋

/-- Embedding of `randomRGB()`, i.e. `Math.floor(u * 256)` where
`u = Math.random()` is the ambient random sample with `0 ≤ u < 1`. -/
def randomRGB (u : ℚ) : ℤ := ⌊u * 256⌋

/-- Embedding of the local `toHex` inside `rgbToHex`:
`n.toString(16).padStart(2, "0")`. `Nat.toDigits 16` produces the lowercase
base-16 digit string exactly as JavaScript `toString(16)` does for integers
in `[0, 255]`; the pad prepends `'0'` up to length 2. -/
def toHex (n : ℕ) : String :=
  let s := String.mk (Nat.toDigits 16 n)
  String.mk (List.replicate (2 - s.length) '0') ++ s

/-- Embedding of `rgbToHex(r, g, b)`. -/
def rgbToHex (r g b : ℕ) : String :=
  "#" ++ toHex r ++ toHex g ++ toHex b

/-- The template string `rgb(r, g, b)` built by the route handler. -/
def rgbString (r g b : ℕ) : String :=
  "rgb(" ++ toString r ++ ", " ++ toString g ++ ", " ++ toString b ++ ")"

/-- Channel normalization at the top of `rgbToHsl`: `r /= 255` etc. -/
def chan (n : ℕ) : ℚ := (n : ℚ) / 255

/-- Embedding of `Math.max(r, g, b)` on the normalized channels. -/
def hslMax (r g b : ℚ) : ℚ := max r (max g b)

/-- Embedding of `Math.min(r, g, b)` on the normalized channels. -/
def hslMin (r g b : ℚ) : ℚ := min r (min g b)

/-- The local variable `l` of `rgbToHsl`: `(max + min) / 2`. -/
def hslL (r g b : ℚ) : ℚ := (hslMax r g b + hslMin r g b) / 2

/-- The local variable `s` of `rgbToHsl`: initialized to `0` and reassigned
inside the `max !== min` branch to
`l > 0.5 ? d / (2 - max - min) : d / (max + min)` with `d = max - min`. -/
def hslS (r g b : ℚ) : ℚ :=
  if hslMax r g b ≠ hslMin r g b then
    if hslL r g b > 1/2 then
      (hslMax r g b - hslMin r g b) / (2 - hslMax r g b - hslMin r g b)
    else
      (hslMax r g b - hslMin r g b) / (hslMax r g b + hslMin r g b)
  else 0

/-- The local variable `h` of `rgbToHsl`: initialized to `0` and reassigned
inside the `max !== min` branch by the three-way comparison
`max === r`, `max === g`, else `max === b`, with `d = max - min`. -/
def hslH (r g b : ℚ) : ℚ :=
  if hslMax r g b ≠ hslMin r g b then
    if hslMax r g b = r then
      ((g - b) / (hslMax r g b - hslMin r g b) + (if g < b then 6 else 0)) / 6
    else if hslMax r g b = g then
      ((b - r) / (hslMax r g b - hslMin r g b) + 2) / 6
    else
      ((r - g) / (hslMax r g b - hslMin r g b) + 4) / 6
  else 0

/-- The three integers interpolated into the `hsl(...)` template string:
`Math.round(h * 360)`, `Math.round(s * 100)`, `Math.round(l * 100)`. -/
def rgbToHslTriple (r g b : ℕ) : ℤ × ℤ × ℤ :=
  (jsRound (hslH (chan r) (chan g) (chan b) * 360),
   jsRound (hslS (chan r) (chan g) (chan b) * 100),
   jsRound (hslL (chan r) (chan g) (chan b) * 100))

/-- Embedding of `rgbToHsl(r, g, b)`: the formatted template string. -/
def rgbToHsl (r g b : ℕ) : String :=
  "hsl(" ++ toString (rgbToHslTriple r g b).1 ++ ", " ++
    toString (rgbToHslTriple r g b).2.1 ++ "%, " ++
    toString (rgbToHslTriple r g b).2.2 ++ "%)"

/-- Reference RGB→HSL algorithm written from the words of spec section 4.3
(for the refinement claim): normalize, take max and min, `L = (max+min)/2`,
achromatic branch when `max = min`, otherwise `d = max - min`,
`Saturation = d/(max+min)` if `L ≤ 0.5` else `d/(2-max-min)`, and the hue
turn by the three-way branch in the order `max = r`, `max = g`, `max = b`. -/
def specHsl (r g b : ℚ) : ℚ × ℚ × ℚ :=
  let mx := max r (max g b)
  let mn := min r (min g b)
  let l := (mx + mn) / 2
  if mx = mn then (0, 0, l)
  else
    let d := mx - mn
    let s := if l ≤ 1/2 then d / (mx + mn) else d / (2 - mx - mn)
    let t :=
      if mx = r then ((g - b) / d + (if g < b then 6 else 0)) / 6
      else if mx = g then ((b - r) / d + 2) / 6
      else ((r - g) / d + 4) / 6
    (t, s, l)

/-- Reference scaling of spec section 4.3 step 7: `H = round(turn*360)`,
`S = round(Saturation*100)`, `L2 = round(L*100)` on the normalized inputs. -/
def specTriple (r g b : ℕ) : ℤ × ℤ × ℤ :=
  ((jsRound ((specHsl ((r : ℚ)/255) ((g : ℚ)/255) ((b : ℚ)/255)).1 * 360)),
   (jsRound ((specHsl ((r : ℚ)/255) ((g : ℚ)/255) ((b : ℚ)/255)).2.1 * 100)),
   (jsRound ((specHsl ((r : ℚ)/255) ((g : ℚ)/255) ((b : ℚ)/255)).2.2 * 100)))

/-- The two-character lowercase base-16 representation of a channel value,
high digit first, as described by the spec for the hex formatter. -/
def hexPair (n : ℕ) : List Char :=
  [Nat.digitChar (n / 16), Nat.digitChar (n % 16)]

/-- Numeric value of one lowercase hexadecimal digit character. -/
def hexVal (c : Char) : ℕ :=
  if c.toNat ≤ 57 then c.toNat - 48 else c.toNat - 87

/-- Parse a `#rrggbb` string back into its three channel values by splitting
after the leading `#` into three two-character pairs. -/
def decodeHexTriple (s : String) : Option (ℕ × ℕ × ℕ) :=
  match s.data with
  | ['#', c1, c2, c3, c4, c5, c6] =>
      some (hexVal c1 * 16 + hexVal c2,
            hexVal c3 * 16 + hexVal c4,
            hexVal c5 * 16 + hexVal c6)
  | _ => none

/-! Helper lemmas. -/

lemma jsRound_nonneg {q : ℚ} (h : 0 ≤ q) : 0 ≤ jsRound q :=
  Int.le_floor.2 (by push_cast; linarith)

lemma jsRound_le {q : ℚ} {c : ℤ} (h : q ≤ (c : ℚ)) : jsRound q ≤ c := by
  have hlt : jsRound q < c + 1 := Int.floor_lt.2 (by push_cast; linarith)
  omega

lemma chan_nonneg (n : ℕ) : 0 ≤ chan n := by
  unfold chan; positivity

lemma chan_le_one {n : ℕ} (h : n ≤ 255) : chan n ≤ 1 := by
  unfold chan
  rw [div_le_one (by norm_num)]
  exact_mod_cast h

lemma hslMin_le_hslMax (r g b : ℚ) : hslMin r g b ≤ hslMax r g b :=
  le_trans (min_le_left r (min g b)) (le_max_left r (max g b))

lemma le_hslMax_left (r g b : ℚ) : r ≤ hslMax r g b := le_max_left _ _

lemma le_hslMax_mid (r g b : ℚ) : g ≤ hslMax r g b :=
  le_trans (le_max_left g b) (le_max_right r (max g b))

lemma le_hslMax_right (r g b : ℚ) : b ≤ hslMax r g b :=
  le_trans (le_max_right g b) (le_max_right r (max g b))

lemma hslMin_le_left (r g b : ℚ) : hslMin r g b ≤ r := min_le_left _ _

lemma hslMin_le_mid (r g b : ℚ) : hslMin r g b ≤ g :=
  le_trans (min_le_right r (min g b)) (min_le_left g b)

lemma hslMin_le_right (r g b : ℚ) : hslMin r g b ≤ b :=
  le_trans (min_le_right r (min g b)) (min_le_right g b)

lemma hslMax_le_one {r g b : ℚ} (hr : r ≤ 1) (hg : g ≤ 1) (hb : b ≤ 1) :
    hslMax r g b ≤ 1 := max_le hr (max_le hg hb)

lemma hslMin_nonneg {r g b : ℚ} (hr : 0 ≤ r) (hg : 0 ≤ g) (hb : 0 ≤ b) :
    0 ≤ hslMin r g b := le_min hr (le_min hg hb)

/-- In the `max !== min` branch the difference `d = max - min` is positive. -/
lemma hslDiff_pos {r g b : ℚ} (hne : hslMax r g b ≠ hslMin r g b) :
    0 < hslMax r g b - hslMin r g b :=
  sub_pos.2 (lt_of_le_of_ne (hslMin_le_hslMax r g b) (Ne.symm hne))

/-- Bound for one hue branch of the form `(x/d + k)/6`. -/
lemma hue_branch_bounds {x d k : ℚ} (hd : 0 < d) (hlo : -d ≤ x) (hhi : x ≤ d)
    (hk0 : 1 ≤ k) (hk4 : k ≤ 4) : 0 ≤ (x / d + k) / 6 ∧ (x / d + k) / 6 < 1 := by
  have h1 : -1 ≤ x / d := by
    rw [le_div_iff₀ hd]; linarith
  have h2 : x / d ≤ 1 := (div_le_one hd).2 hhi
  constructor <;> linarith

/-- The hue variable of `rgbToHsl` always lies in `[0, 1)`. -/
lemma hslH_bounds (r g b : ℚ) : 0 ≤ hslH r g b ∧ hslH r g b < 1 := by
  unfold hslH
  by_cases hne : hslMax r g b ≠ hslMin r g b
  · rw [if_pos hne]
    have hd : 0 < hslMax r g b - hslMin r g b := hslDiff_pos hne
    by_cases hmr : hslMax r g b = r
    · rw [if_pos hmr]
      by_cases hgb : g < b
      · rw [if_pos hgb]
        have hlo : -(hslMax r g b - hslMin r g b) ≤ g - b := by
          have h1 := le_hslMax_right r g b
          have h2 := hslMin_le_mid r g b
          linarith
        have hneg : (g - b) / (hslMax r g b - hslMin r g b) < 0 :=
          div_neg_of_neg_of_pos (by linarith) hd
        have hge : -1 ≤ (g - b) / (hslMax r g b - hslMin r g b) := by
          rw [le_div_iff₀ hd]; linarith
        constructor <;> linarith
      · rw [if_neg hgb]
        have hge : 0 ≤ (g - b) / (hslMax r g b - hslMin r g b) :=
          div_nonneg (by linarith [not_lt.1 hgb]) hd.le
        have hle : (g - b) / (hslMax r g b - hslMin r g b) ≤ 1 := by
          rw [div_le_one hd]
          have h1 := le_hslMax_mid r g b
          have h2 := hslMin_le_right r g b
          linarith
        constructor <;> linarith
    · rw [if_neg hmr]
      by_cases hmg : hslMax r g b = g
      · rw [if_pos hmg]
        refine hue_branch_bounds hd ?_ ?_ (by norm_num) (by norm_num)
        · have h1 := le_hslMax_left r g b
          have h2 := hslMin_le_right r g b
          linarith
        · have h1 := le_hslMax_right r g b
          have h2 := hslMin_le_left r g b
          linarith
      · rw [if_neg hmg]
        refine hue_branch_bounds hd ?_ ?_ (by norm_num) (by norm_num)
        · have h1 := le_hslMax_mid r g b
          have h2 := hslMin_le_left r g b
          linarith
        · have h1 := le_hslMax_left r g b
          have h2 := hslMin_le_mid r g b
          linarith
  · rw [if_neg hne]; norm_num

/-- The saturation variable of `rgbToHsl` lies in `[0, 1]` whenever the
normalized channels lie in `[0, 1]`. -/
lemma hslS_bounds {r g b : ℚ} (h0r : 0 ≤ r) (h0g : 0 ≤ g) (h0b : 0 ≤ b)
    (h1r : r ≤ 1) (h1g : g ≤ 1) (h1b : b ≤ 1) :
    0 ≤ hslS r g b ∧ hslS r g b ≤ 1 := by
  unfold hslS
  by_cases hne : hslMax r g b ≠ hslMin r g b
  · rw [if_pos hne]
    have hd : 0 < hslMax r g b - hslMin r g b := hslDiff_pos hne
    have hmx1 : hslMax r g b ≤ 1 := hslMax_le_one h1r h1g h1b
    have hmn0 : 0 ≤ hslMin r g b := hslMin_nonneg h0r h0g h0b
    by_cases hl : hslL r g b > 1/2
    · rw [if_pos hl]
      have hpos : 0 < 2 - hslMax r g b - hslMin r g b := by
        have := hslMin_le_hslMax r g b
        linarith
      constructor
      · exact div_nonneg hd.le hpos.le
      · rw [div_le_one hpos]; linarith
    · rw [if_neg hl]
      have hpos : 0 < hslMax r g b + hslMin r g b := by linarith
      constructor
      · exact div_nonneg hd.le hpos.le
      · rw [div_le_one hpos]; linarith
  · rw [if_neg hne]; norm_num

/-- The lightness variable of `rgbToHsl` lies in `[0, 1]` whenever the
normalized channels lie in `[0, 1]`. -/
lemma hslL_bounds {r g b : ℚ} (h0r : 0 ≤ r) (h0g : 0 ≤ g) (h0b : 0 ≤ b)
    (h1r : r ≤ 1) (h1g : g ≤ 1) (h1b : b ≤ 1) :
    0 ≤ hslL r g b ∧ hslL r g b ≤ 1 := by
  unfold hslL
  have hmx1 : hslMax r g b ≤ 1 := hslMax_le_one h1r h1g h1b
  have hmn0 : 0 ≤ hslMin r g b := hslMin_nonneg h0r h0g h0b
  have := hslMin_le_hslMax r g b
  constructor <;> linarith

/-- For every channel value the padded `toString(16)` output is exactly the
two lowercase digits `digitChar (n / 16)`, `digitChar (n % 16)`. -/
lemma toHex_data : ∀ n < 256, (toHex n).data = hexPair n := by decide

/-- Decoding the two hex digits of a channel value recovers the value. -/
lemma hexPair_decode : ∀ n < 256,
    hexVal (Nat.digitChar (n / 16)) * 16 + hexVal (Nat.digitChar (n % 16)) = n := by
  decide

/-- Both hex digits of a channel value are lowercase hexadecimal digits. -/
lemma hexPair_mem : ∀ n < 256, ∀ c ∈ hexPair n, c ∈ ("0123456789abcdef").data := by
  decide

/-- Character data of the full `#rrggbb` string. -/
lemma rgbToHex_data {r g b : ℕ} (hr : r ≤ 255) (hg : g ≤ 255) (hb : b ≤ 255) :
    (rgbToHex r g b).data = '#' :: (hexPair r ++ hexPair g ++ hexPair b) := by
  have h1 := toHex_data r (by omega)
  have h2 := toHex_data g (by omega)
  have h3 := toHex_data b (by omega)
  simp [rgbToHex, String.data_append, h1, h2, h3]

/-- The implementation's `(h, s, l)` agrees with the reference algorithm of
spec section 4.3 on every input. -/
lemma specHsl_eq (r g b : ℚ) :
    specHsl r g b = (hslH r g b, hslS r g b, hslL r g b) := by
  unfold specHsl hslH hslS hslL hslMax hslMin
  by_cases heq : max r (max g b) = min r (min g b)
  · simp [heq]
  · by_cases hl : (max r (max g b) + min r (min g b)) / 2 ≤ (2⁻¹ : ℚ)
    · simp [heq, hl, not_lt.2 hl]
    · simp [heq, hl, not_le.1 hl]

/-! Claim theorems. -/

/-- C1 (counterexample): the claim that the printed hue is always in
`[0, 360)` fails: on input `(255, 0, 1)` the turn is `(6 - 1/255)/6`, so
`turn * 360 = 360 - 60/255 ≈ 359.765`, and `Math.round` produces exactly
`360`, which is emitted in the string. -/
theorem hue360_emitted : rgbToHsl 255 0 1 = "hsl(360, 100%, 50%)" := by
  have ht : rgbToHslTriple 255 0 1 = (360, 100, 50) := by
    norm_num [rgbToHslTriple, hslH, hslS, hslL, hslMax, hslMin, chan, jsRound,
      max_def, min_def]
  simp only [rgbToHsl, ht]
  rfl

/-- C1 (amended): for every channel triple the hue printed by `rgbToHsl` is
an integer in the closed interval `[0, 360]`; the pre-rounding turn is
always in `[0, 1)`, but rounding can produce exactly `360`. -/
theorem hue_in_closed_range (r g b : ℕ) :
    0 ≤ (rgbToHslTriple r g b).1 ∧ (rgbToHslTriple r g b).1 ≤ 360 := by
  obtain ⟨h0, h1⟩ := hslH_bounds (chan r) (chan g) (chan b)
  constructor
  · exact jsRound_nonneg (by positivity)
  · refine jsRound_le ?_
    push_cast
    nlinarith

/-- C2: the five literal scenarios of the spec hold exactly for `rgbToHex`,
the `rgb(...)` template string and `rgbToHsl`. -/
theorem literal_scenarios :
    (rgbToHex 255 0 0 = "#ff0000" ∧ rgbString 255 0 0 = "rgb(255, 0, 0)" ∧
      rgbToHsl 255 0 0 = "hsl(0, 100%, 50%)") ∧
    (rgbToHex 0 128 0 = "#008000" ∧ rgbString 0 128 0 = "rgb(0, 128, 0)" ∧
      rgbToHsl 0 128 0 = "hsl(120, 100%, 25%)") ∧
    (rgbToHex 128 128 128 = "#808080" ∧
      rgbString 128 128 128 = "rgb(128, 128, 128)" ∧
      rgbToHsl 128 128 128 = "hsl(0, 0%, 50%)") ∧
    (rgbToHex 255 255 255 = "#ffffff" ∧
      rgbString 255 255 255 = "rgb(255, 255, 255)" ∧
      rgbToHsl 255 255 255 = "hsl(0, 0%, 100%)") ∧
    (rgbToHex 0 0 0 = "#000000" ∧ rgbString 0 0 0 = "rgb(0, 0, 0)" ∧
      rgbToHsl 0 0 0 = "hsl(0, 0%, 0%)") := by
  have t1 : rgbToHslTriple 255 0 0 = (0, 100, 50) := by
    norm_num [rgbToHslTriple, hslH, hslS, hslL, hslMax, hslMin, chan, jsRound,
      max_def, min_def]
  have t2 : rgbToHslTriple 0 128 0 = (120, 100, 25) := by
    norm_num [rgbToHslTriple, hslH, hslS, hslL, hslMax, hslMin, chan, jsRound,
      max_def, min_def]
  have t3 : rgbToHslTriple 128 128 128 = (0, 0, 50) := by
    norm_num [rgbToHslTriple, hslH, hslS, hslL, hslMax, hslMin, chan, jsRound,
      max_def, min_def]
  have t4 : rgbToHslTriple 255 255 255 = (0, 0, 100) := by
    norm_num [rgbToHslTriple, hslH, hslS, hslL, hslMax, hslMin, chan, jsRound,
      max_def, min_def]
  have t5 : rgbToHslTriple 0 0 0 = (0, 0, 0) := by
    norm_num [rgbToHslTriple, hslH, hslS, hslL, hslMax, hslMin, chan, jsRound,
      max_def, min_def]
  refine ⟨⟨by decide, by decide, ?_⟩, ⟨by decide, by decide, ?_⟩,
    ⟨by decide, by decide, ?_⟩, ⟨by decide, by decide, ?_⟩,
    ⟨by decide, by decide, ?_⟩⟩
  · simp only [rgbToHsl, t1]; rfl
  · simp only [rgbToHsl, t2]; rfl
  · simp only [rgbToHsl, t3]; rfl
  · simp only [rgbToHsl, t4]; rfl
  · simp only [rgbToHsl, t5]; rfl

/-- C3: for every channel triple, the rounded `(H, S, L)` computed by
`rgbToHsl` coincides with the reference algorithm of spec section 4.3
(including the `L ≤ 0.5` saturation split and the `max = r`, `max = g`,
`max = b` tie-break order). -/
theorem rgbToHsl_matches_spec (r g b : ℕ) :
    rgbToHslTriple r g b = specTriple r g b := by
  simp [rgbToHslTriple, specTriple, specHsl_eq, chan]

/-- C4: for channel values in `[0, 255]`, `rgbToHex` produces `#` followed by
exactly six lowercase hexadecimal digits, each consecutive pair being the
two-digit zero-padded base-16 representation of `r`, `g`, `b` in order. -/
theorem rgbToHex_format (r g b : ℕ) (hr : r ≤ 255) (hg : g ≤ 255)
    (hb : b ≤ 255) :
    (rgbToHex r g b).data = '#' :: (hexPair r ++ hexPair g ++ hexPair b) ∧
    (rgbToHex r g b).length = 7 ∧
    ∀ c ∈ (rgbToHex r g b).data.tail, c ∈ ("0123456789abcdef").data := by
  have hd := rgbToHex_data hr hg hb
  refine ⟨hd, ?_, ?_⟩
  · simp [String.length, hd, hexPair]
  · intro c hc
    rw [hd] at hc
    simp only [List.tail_cons] at hc
    rcases List.mem_append.1 hc with h | h
    · rcases List.mem_append.1 h with h2 | h2
      · exact hexPair_mem r (by omega) c h2
      · exact hexPair_mem g (by omega) c h2
    · exact hexPair_mem b (by omega) c h

/-- C4 (witness): the format theorem instantiated at `(5, 255, 0)`. -/
theorem rgbToHex_format_witness :
    (rgbToHex 5 255 0).data = '#' :: (hexPair 5 ++ hexPair 255 ++ hexPair 0) ∧
    (rgbToHex 5 255 0).length = 7 ∧
    ∀ c ∈ (rgbToHex 5 255 0).data.tail, c ∈ ("0123456789abcdef").data :=
  rgbToHex_format 5 255 0 (by decide) (by decide) (by decide)

/-- C5: on any grayscale triple `(v, v, v)` the achromatic branch forces
`H = 0` and `S = 0`, and the output is literally
`hsl(0, 0%, L%)` with `L = round(v/255*100)`. -/
theorem rgbToHsl_grayscale (v : ℕ) :
    rgbToHsl v v v =
      "hsl(0, 0%, " ++ toString (jsRound ((v : ℚ) / 255 * 100)) ++ "%)" := by
  have hmax : hslMax (chan v) (chan v) (chan v) = chan v := by
    simp [hslMax]
  have hmin : hslMin (chan v) (chan v) (chan v) = chan v := by
    simp [hslMin]
  have hH : hslH (chan v) (chan v) (chan v) = 0 := by
    simp [hslH, hmax, hmin]
  have hS : hslS (chan v) (chan v) (chan v) = 0 := by
    simp [hslS, hmax, hmin]
  have hL : hslL (chan v) (chan v) (chan v) = chan v := by
    rw [hslL, hmax, hmin]; ring
  have ht : rgbToHslTriple v v v = (0, 0, jsRound ((v : ℚ) / 255 * 100)) := by
    simp only [rgbToHslTriple, hH, hS, hL]
    norm_num [jsRound, chan]
  simp only [rgbToHsl, ht]
  rfl

/-- C6: for channel values in `[0, 255]` the printed saturation and
lightness are integers in `[0, 100]`. -/
theorem sat_light_in_range (r g b : ℕ) (hr : r ≤ 255) (hg : g ≤ 255)
    (hb : b ≤ 255) :
    0 ≤ (rgbToHslTriple r g b).2.1 ∧ (rgbToHslTriple r g b).2.1 ≤ 100 ∧
    0 ≤ (rgbToHslTriple r g b).2.2 ∧ (rgbToHslTriple r g b).2.2 ≤ 100 := by
  obtain ⟨hs0, hs1⟩ := hslS_bounds (chan_nonneg r) (chan_nonneg g)
    (chan_nonneg b) (chan_le_one hr) (chan_le_one hg) (chan_le_one hb)
  obtain ⟨hl0, hl1⟩ := hslL_bounds (chan_nonneg r) (chan_nonneg g)
    (chan_nonneg b) (chan_le_one hr) (chan_le_one hg) (chan_le_one hb)
  refine ⟨jsRound_nonneg (by positivity), jsRound_le ?_,
    jsRound_nonneg (by positivity), jsRound_le ?_⟩ <;> push_cast <;> nlinarith

/-- C6 (witness): the saturation/lightness range theorem at `(10, 20, 30)`. -/
theorem sat_light_in_range_witness :
    0 ≤ (rgbToHslTriple 10 20 30).2.1 ∧ (rgbToHslTriple 10 20 30).2.1 ≤ 100 ∧
    0 ≤ (rgbToHslTriple 10 20 30).2.2 ∧ (rgbToHslTriple 10 20 30).2.2 ≤ 100 :=
  sat_light_in_range 10 20 30 (by decide) (by decide) (by decide)

/-- C7: under the `max !== min` guard every divisor used by `rgbToHsl` is
positive, so no division by zero is reachable: `d = max - min > 0`,
`max + min > 0` on the `l ≤ 1/2` saturation branch, and
`2 - max - min > 0` on the `l > 1/2` branch. -/
theorem no_division_by_zero (r g b : ℕ) (hr : r ≤ 255) (hg : g ≤ 255)
    (hb : b ≤ 255)
    (hne : hslMax (chan r) (chan g) (chan b) ≠ hslMin (chan r) (chan g) (chan b)) :
    0 < hslMax (chan r) (chan g) (chan b) - hslMin (chan r) (chan g) (chan b) ∧
    (hslL (chan r) (chan g) (chan b) ≤ 1/2 →
      0 < hslMax (chan r) (chan g) (chan b) + hslMin (chan r) (chan g) (chan b)) ∧
    (1/2 < hslL (chan r) (chan g) (chan b) →
      0 < 2 - hslMax (chan r) (chan g) (chan b) - hslMin (chan r) (chan g) (chan b)) := by
  have hd := hslDiff_pos hne
  have hmn0 : 0 ≤ hslMin (chan r) (chan g) (chan b) :=
    hslMin_nonneg (chan_nonneg r) (chan_nonneg g) (chan_nonneg b)
  have hmx1 : hslMax (chan r) (chan g) (chan b) ≤ 1 :=
    hslMax_le_one (chan_le_one hr) (chan_le_one hg) (chan_le_one hb)
  exact ⟨hd, fun _ => by linarith, fun _ => by linarith⟩

/-- C7 (witness): the divisor-positivity theorem at `(255, 0, 0)`. -/
theorem no_division_by_zero_witness :
    0 < hslMax (chan 255) (chan 0) (chan 0) - hslMin (chan 255) (chan 0) (chan 0) ∧
    (hslL (chan 255) (chan 0) (chan 0) ≤ 1/2 →
      0 < hslMax (chan 255) (chan 0) (chan 0) + hslMin (chan 255) (chan 0) (chan 0)) ∧
    (1/2 < hslL (chan 255) (chan 0) (chan 0) →
      0 < 2 - hslMax (chan 255) (chan 0) (chan 0) - hslMin (chan 255) (chan 0) (chan 0)) :=
  no_division_by_zero 255 0 0 (by decide) (by decide) (by decide)
    (by norm_num [hslMax, hslMin, chan, max_def, min_def])

/-- C8: for every random sample `0 ≤ u < 1` the value `randomRGB u` is an
integer in `[0, 255]`, and both endpoints are attained (`u = 0` gives `0`,
`u = 255/256` gives `255`). -/
theorem randomRGB_range (u : ℚ) (h0 : 0 ≤ u) (h1 : u < 1) :
    (0 ≤ randomRGB u ∧ randomRGB u ≤ 255) ∧
    randomRGB 0 = 0 ∧ randomRGB (255/256) = 255 := by
  refine ⟨⟨Int.le_floor.2 (by push_cast; positivity), ?_⟩, ?_, ?_⟩
  · have hlt : randomRGB u < 256 := Int.floor_lt.2 (by push_cast; linarith)
    omega
  · norm_num [randomRGB]
  · norm_num [randomRGB]

/-- C8 (witness): the range theorem at `u = 1/2`. -/
theorem randomRGB_range_witness :
    (0 ≤ randomRGB (1/2) ∧ randomRGB (1/2) ≤ 255) ∧
    randomRGB 0 = 0 ∧ randomRGB (255/256) = 255 :=
  randomRGB_range (1/2) (by norm_num) (by norm_num)

/-- C9: splitting the `#rrggbb` output after the `#` into three two-digit
base-16 pairs recovers `(r, g, b)` exactly, and `rgbToHex` is injective on
channel triples in `[0, 255]`. -/
theorem rgbToHex_roundtrip (r g b : ℕ) (hr : r ≤ 255) (hg : g ≤ 255)
    (hb : b ≤ 255) :
    decodeHexTriple (rgbToHex r g b) = some (r, g, b) ∧
    ∀ r2 g2 b2 : ℕ, r2 ≤ 255 → g2 ≤ 255 → b2 ≤ 255 →
      rgbToHex r g b = rgbToHex r2 g2 b2 → r = r2 ∧ g = g2 ∧ b = b2 := by
  have hdec : ∀ x y z : ℕ, x ≤ 255 → y ≤ 255 → z ≤ 255 →
      decodeHexTriple (rgbToHex x y z) = some (x, y, z) := by
    intro x y z hx hy hz
    have hd := rgbToHex_data hx hy hz
    have e1 := hexPair_decode x (by omega)
    have e2 := hexPair_decode y (by omega)
    have e3 := hexPair_decode z (by omega)
    simp [decodeHexTriple, hd, hexPair] at e1 e2 e3 ⊢
    exact ⟨e1, e2, e3⟩
  refine ⟨hdec r g b hr hg hb, ?_⟩
  intro r2 g2 b2 h2r h2g h2b heq
  have h1 := hdec r g b hr hg hb
  have h2 := hdec r2 g2 b2 h2r h2g h2b
  rw [heq, h2] at h1
  have h3 := Option.some.inj h1
  simp only [Prod.mk.injEq] at h3
  exact ⟨h3.1.symm, h3.2.1.symm, h3.2.2.symm⟩

/-- C9 (witness): the round-trip theorem at `(163, 245, 66)`. -/
theorem rgbToHex_roundtrip_witness :
    decodeHexTriple (rgbToHex 163 245 66) = some (163, 245, 66) ∧
    ∀ r2 g2 b2 : ℕ, r2 ≤ 255 → g2 ≤ 255 → b2 ≤ 255 →
      rgbToHex 163 245 66 = rgbToHex r2 g2 b2 → 163 = r2 ∧ 245 = g2 ∧ 66 = b2 :=
  rgbToHex_roundtrip 163 245 66 (by decide) (by decide) (by decide)

/-- C10: the two formatters are deterministic: calls with identical argument
triples return identical strings. -/
theorem formatters_deterministic (r1 g1 b1 r2 g2 b2 : ℕ)
    (hr : r1 = r2) (hg : g1 = g2) (hb : b1 = b2) :
    rgbToHex r1 g1 b1 = rgbToHex r2 g2 b2 ∧
    rgbToHsl r1 g1 b1 = rgbToHsl r2 g2 b2 := by
  subst hr hg hb
  exact ⟨rfl, rfl⟩

/-- C10 (witness): determinism instantiated at `(163, 245, 66)`. -/
theorem formatters_deterministic_witness :
    rgbToHex 163 245 66 = rgbToHex 163 245 66 ∧
    rgbToHsl 163 245 66 = rgbToHsl 163 245 66 :=
  formatters_deterministic 163 245 66 163 245 66 rfl rfl rfl

end RandomColorApi
